import Mathlib

/-!
Verification of the k8smultiarcher admission-webhook core against its
specification.  The Go source is shallowly embedded: pure functions become
Lean functions, the mutable toleration slice and the TTL cache become
explicit state passing, and external collaborators (JSON codecs, the JSON
diff capability, the Kubernetes API backed registry-host resolver, and the
OCI manifest inspection) are passed in as function parameters, exactly at
the interface boundaries the specification draws in its section 6.
-/

/-- Embeds corev1.Toleration with every field participating in the Go
struct equality used by slices.Contains in addTolerationsToSlice: Key,
Value, Operator, Effect, and TolerationSeconds.  TolerationSeconds is an
int64 pointer in Go, which the built-in equality compares by pointer: nil
equals nil, nil differs from any non-nil pointer.  It is embedded as the
optional value; this coincides with the pointer comparison on every check
the program performs, because one side of each check is a mapping-built
toleration, and those always carry a nil TolerationSeconds (config.go
never sets the field), so the comparison is always nil against nil or nil
against non-nil. -/
structure Toleration where
  Key : String
  Value : String
  Operator : String
  Effect : String
  TolerationSeconds : Option Int
  deriving DecidableEq, Repr

/-- Embeds corev1.Container restricted to the fields the program reads
(Name and Image). -/
structure Container where
  Name : String
  Image : String
  deriving DecidableEq, Repr

/-- Embeds corev1.EphemeralContainer restricted to the fields the program
reads; admission.go reduces an ephemeral container to its Name and Image. -/
structure EphemeralContainer where
  Name : String
  Image : String
  deriving DecidableEq, Repr

/-- Embeds regclient config.Host restricted to the fields registry_auth.go
populates (name, User, Pass, Token). -/
structure Host where
  Name : String
  User : String
  Pass : String
  Token : String
  deriving DecidableEq, Repr

/-- Embeds PlatformTolerationMapping from config.go. -/
structure PlatformTolerationMapping where
  Platform : String
  Toleration : Toleration
  deriving DecidableEq, Repr

/-- Embeds PlatformTolerationConfig from config.go. -/
structure PlatformTolerationConfig where
  Mappings : List PlatformTolerationMapping
  deriving DecidableEq, Repr

/-- Embeds (c *PlatformTolerationConfig) GetPlatforms from config.go: the
platforms of the mappings, in mapping order. -/
def PlatformTolerationConfig.GetPlatforms (c : PlatformTolerationConfig) : List String :=
  c.Mappings.map (fun m => m.Platform)

/-- Embeds (c *PlatformTolerationConfig) GetTolerationsForPlatforms from
config.go: for each mapping, in mapping order, the toleration is appended
when the mapping platform occurs in supportedPlatforms (the Go inner loop
breaks on the first exact string match, which is list membership). -/
def PlatformTolerationConfig.GetTolerationsForPlatforms
    (c : PlatformTolerationConfig) (supportedPlatforms : List String) : List Toleration :=
  c.Mappings.foldl
    (fun acc m => if m.Platform ∈ supportedPlatforms then acc ++ [m.Toleration] else acc) []

/-- The observable state of the Cache interface from cache.go within one
request: the sequence of recorded entries (key, value, ttl in nanoseconds),
most recent first. -/
structure CacheState where
  entries : List (String × Bool × Nat)
  deriving DecidableEq, Repr

/-- Embeds Cache.Get: the recorded value for the key, if any (the Go
interface returns (value, found); Option Bool models that pair). -/
def CacheState.Get (c : CacheState) (key : String) : Option Bool :=
  (c.entries.find? (fun e => e.1 == key)).map (fun e => e.2.1)

/-- Embeds Cache.Set: records (key, value, ttl). -/
def CacheState.Set (c : CacheState) (key : String) (value : Bool) (ttl : Nat) : CacheState :=
  ⟨(key, value, ttl) :: c.entries⟩

/-- Nanoseconds per minute, the unit of Go time.Duration. -/
def nsPerMinute : Nat := 60 * 1000000000

/-- Nanoseconds per hour. -/
def nsPerHour : Nat := 60 * nsPerMinute

/-- Embeds cacheSuccessTTL = 24 * time.Hour from image.go. -/
def cacheSuccessTTL : Nat := 24 * nsPerHour

/-- Embeds cacheFailureTTL = 5 * time.Minute from image.go. -/
def cacheFailureTTL : Nat := 5 * nsPerMinute

/-- Embeds cacheNegativeTTL = 6 * time.Hour from image.go. -/
def cacheNegativeTTL : Nat := 6 * nsPerHour

/-- Embeds DoesImageSupportPlatform from image.go.  The parameter inspect
abstracts GetManifest followed by manifest.GetPlatformList: it yields the
platform strings of the manifest list on success, and an error when the
reference fails to parse, the fetch fails, the manifest is not a list, or
the platform list cannot be read — in the source every one of those error
paths records false with cacheFailureTTL, so they collapse into one error
case.  The source scans the platform list for an exact string match, which
is list membership. -/
def DoesImageSupportPlatform
    (inspect : String → List Host → Except String (List String))
    (cache : CacheState) (name platform : String) (hosts : List Host) :
    Bool × CacheState :=
  let cacheKey := name ++ ":" ++ platform
  match cache.Get cacheKey with
  | some val => (val, cache)
  | none =>
    match inspect name hosts with
    | .error _ => (false, cache.Set cacheKey false cacheFailureTTL)
    | .ok platforms =>
      if platform ∈ platforms then
        (true, cache.Set cacheKey true cacheSuccessTTL)
      else
        (false, cache.Set cacheKey false cacheNegativeTTL)

/-- Embeds corev1.PodSpec restricted to the fields the program reads and
writes: the three container lists and the toleration list. -/
structure PodSpec where
  Containers : List Container
  InitContainers : List Container
  EphemeralContainers : List EphemeralContainer
  Tolerations : List Toleration
  deriving DecidableEq, Repr

/-- Embeds corev1.Pod restricted to the fields the program reads
(ObjectMeta.Namespace and Spec). -/
structure Pod where
  Namespace : String
  Spec : PodSpec
  deriving DecidableEq, Repr

/-- Embeds corev1.PodTemplateSpec restricted to the Spec field. -/
structure PodTemplateSpec where
  Spec : PodSpec
  deriving DecidableEq, Repr

/-- Embeds appsv1.DaemonSetSpec restricted to the Template field. -/
structure DaemonSetSpec where
  Template : PodTemplateSpec
  deriving DecidableEq, Repr

/-- Embeds appsv1.DaemonSet restricted to the fields the program reads
(ObjectMeta.Namespace and Spec). -/
structure DaemonSet where
  Namespace : String
  Spec : DaemonSetSpec
  deriving DecidableEq, Repr

/-- The union of regular, init, and ephemeral containers of a pod spec, in
that order, with an ephemeral container reduced to its Name and Image —
the allContainers slice built identically inside GetPodSupportedPlatforms
and GetPodTemplateSupportedPlatforms in admission.go. -/
def PodSpec.allContainers (spec : PodSpec) : List Container :=
  spec.Containers ++ spec.InitContainers
    ++ spec.EphemeralContainers.map (fun ec => { Name := ec.Name, Image := ec.Image })

/-- Embeds getContainersSupportedPlatforms from admission.go.  The
parameter supp is the platform-support capability for one request: in the
source it is DoesImageSupportPlatform applied to the request context, the
shared cache, and the resolved registry hosts.  The source sets allSupport
to false and breaks on the first container whose image lacks the platform,
which is the short-circuit conjunction List.all; a platform is appended
exactly when allSupport survives, preserving configuration order. -/
def getContainersSupportedPlatforms
    (supp : String → String → Bool)
    (config : PlatformTolerationConfig) (containers : List Container) : List String :=
  config.GetPlatforms.foldl
    (fun acc platform =>
      if containers.all (fun c => supp c.Image platform) then acc ++ [platform] else acc)
    []

/-- Embeds GetPodSupportedPlatforms from admission.go: the platforms
supported by every container in the union of regular, init, and ephemeral
containers of the pod. -/
def GetPodSupportedPlatforms
    (supp : String → String → Bool)
    (config : PlatformTolerationConfig) (pod : Pod) : List String :=
  getContainersSupportedPlatforms supp config pod.Spec.allContainers

/-- Embeds GetPodTemplateSupportedPlatforms from admission.go. -/
def GetPodTemplateSupportedPlatforms
    (supp : String → String → Bool)
    (config : PlatformTolerationConfig) (template : PodTemplateSpec) : List String :=
  getContainersSupportedPlatforms supp config template.Spec.allContainers

/-- The body of the loop in addTolerationsToSlice from admission.go:
append the toleration unless the slice already holds a field-wise
identical element (slices.Contains). -/
def appendTolerationIfMissing (acc : List Toleration) (tol : Toleration) : List Toleration :=
  if tol ∈ acc then acc else acc ++ [tol]

/-- Embeds addTolerationsToSlice from admission.go: for each toleration
produced by GetTolerationsForPlatforms, in order, append it to the
toleration list unless a field-wise identical element is already there.
The Go function mutates the slice through a pointer; here the updated list
is returned. -/
def addTolerationsToSlice
    (config : PlatformTolerationConfig) (supportedPlatforms : List String)
    (tolerations : List Toleration) : List Toleration :=
  (config.GetTolerationsForPlatforms supportedPlatforms).foldl
    appendTolerationIfMissing tolerations

/-- Embeds AddTolerationsToPod from admission.go (pure: returns the
updated pod). -/
def AddTolerationsToPod
    (config : PlatformTolerationConfig) (pod : Pod)
    (supportedPlatforms : List String) : Pod :=
  { pod with Spec.Tolerations := addTolerationsToSlice config supportedPlatforms pod.Spec.Tolerations }

/-- Embeds AddTolerationsToPodTemplate from admission.go (pure: returns
the updated template). -/
def AddTolerationsToPodTemplate
    (config : PlatformTolerationConfig) (template : PodTemplateSpec)
    (supportedPlatforms : List String) : PodTemplateSpec :=
  { template with Spec.Tolerations := addTolerationsToSlice config supportedPlatforms template.Spec.Tolerations }

/-- Embeds admissionv1.AdmissionRequest restricted to the fields the
program reads: UID, Kind.Kind (flattened to Kind), Namespace, and the raw
bytes of the embedded object. -/
structure AdmissionRequest where
  UID : String
  Kind : String
  Namespace : String
  Object : String
  deriving DecidableEq, Repr

/-- Embeds admissionv1.AdmissionResponse restricted to the fields the
program writes: UID, Allowed, PatchType, Patch.  The pointer fields
PatchType and Patch, nil when absent, become Option. -/
structure AdmissionResponse where
  UID : String
  Allowed : Bool
  PatchType : Option String
  Patch : Option String
  deriving DecidableEq, Repr

/-- Embeds admissionv1.AdmissionReview restricted to the fields the
program touches; nil pointers become none. -/
structure AdmissionReview where
  Request : Option AdmissionRequest
  Response : Option AdmissionResponse
  deriving DecidableEq, Repr

/-- The external collaborators consumed by ProcessAdmissionReview, at the
interface boundaries of the specification, section 6: the JSON codecs
(encoding/json Unmarshal and Marshal for the review, Pod, and DaemonSet),
the JSON diff capability (jsonpatch.CreatePatch followed by json.Marshal
of the patch, collapsed into one fallible step since both failures abort
the request identically), the Kubernetes API backed GetRegistryHosts from
registry_auth.go, and the per-request platform-support capability
(DoesImageSupportPlatform over the shared cache). -/
structure AdmissionDeps where
  unmarshalReview : String → Except String AdmissionReview
  unmarshalPod : String → Except String Pod
  marshalPod : Pod → Except String String
  unmarshalDaemonSet : String → Except String DaemonSet
  marshalDaemonSet : DaemonSet → Except String String
  createPatch : String → String → Except String String
  getRegistryHosts : String → PodSpec → List Host
  doesImageSupportPlatform : String → String → List Host → Bool

/-- Embeds AdmissionReviewFromRequest from admission.go: unmarshal the
body, then fail with the fixed message when the embedded request is nil. -/
def AdmissionReviewFromRequest
    (deps : AdmissionDeps) (body : String) : Except String AdmissionReview :=
  match deps.unmarshalReview body with
  | .error e => .error e
  | .ok review =>
    match review.Request with
    | none => .error "got an invalid admission request"
    | some _ => .ok review

/-- The Pod arm of the kind switch in ProcessAdmissionReview: unmarshal
the pod, resolve the namespace preferring the request namespace, resolve
the registry hosts, compute the supported platforms; on an empty set
return the plain response, otherwise patch the tolerations, marshal, diff
against the original bytes, and return the response carrying the patch. -/
def processPod
    (deps : AdmissionDeps) (config : PlatformTolerationConfig)
    (req : AdmissionRequest) (response : AdmissionResponse) :
    Except String AdmissionResponse :=
  match deps.unmarshalPod req.Object with
  | .error e => .error e
  | .ok pod =>
    let ns := if req.Namespace = "" then pod.Namespace else req.Namespace
    let registryHosts := deps.getRegistryHosts ns pod.Spec
    let supportedPlatforms :=
      GetPodSupportedPlatforms
        (fun img pl => deps.doesImageSupportPlatform img pl registryHosts) config pod
    if supportedPlatforms.isEmpty then
      .ok response
    else
      let patched := AddTolerationsToPod config pod supportedPlatforms
      match deps.marshalPod patched with
      | .error e => .error e
      | .ok modifiedBytes =>
        match deps.createPatch req.Object modifiedBytes with
        | .error e => .error e
        | .ok jsonPatch =>
          .ok { response with PatchType := some "JSONPatch", Patch := some jsonPatch }

/-- The DaemonSet arm of the kind switch in ProcessAdmissionReview,
operating on the pod template of the daemon set. -/
def processDaemonSet
    (deps : AdmissionDeps) (config : PlatformTolerationConfig)
    (req : AdmissionRequest) (response : AdmissionResponse) :
    Except String AdmissionResponse :=
  match deps.unmarshalDaemonSet req.Object with
  | .error e => .error e
  | .ok ds =>
    let ns := if req.Namespace = "" then ds.Namespace else req.Namespace
    let registryHosts := deps.getRegistryHosts ns ds.Spec.Template.Spec
    let supportedPlatforms :=
      GetPodTemplateSupportedPlatforms
        (fun img pl => deps.doesImageSupportPlatform img pl registryHosts) config ds.Spec.Template
    if supportedPlatforms.isEmpty then
      .ok response
    else
      let patched := { ds with Spec.Template := AddTolerationsToPodTemplate config ds.Spec.Template supportedPlatforms }
      match deps.marshalDaemonSet patched with
      | .error e => .error e
      | .ok modifiedBytes =>
        match deps.createPatch req.Object modifiedBytes with
        | .error e => .error e
        | .ok jsonPatch =>
          .ok { response with PatchType := some "JSONPatch", Patch := some jsonPatch }

/-- The kind switch of ProcessAdmissionReview: only Pod and DaemonSet are
recognized; any other kind fails with the formatted message of the
source (fmt.Errorf with the kind appended). -/
def processRequest
    (deps : AdmissionDeps) (config : PlatformTolerationConfig)
    (req : AdmissionRequest) : Except String AdmissionResponse :=
  let response : AdmissionResponse :=
    { UID := req.UID, Allowed := true, PatchType := none, Patch := none }
  if req.Kind = "Pod" then
    processPod deps config req response
  else if req.Kind = "DaemonSet" then
    processDaemonSet deps config req response
  else
    .error ("got a request for an unsupported kind: " ++ req.Kind)

/-- Embeds ProcessAdmissionReview from admission.go.  The Go function
initializes the response with the request UID and Allowed true before the
kind switch, returns early with that plain response when no platform is
supported, and otherwise attaches the JSONPatch patch; every error path
returns nil for the review, embedded as Except.error. -/
def ProcessAdmissionReview
    (deps : AdmissionDeps) (config : PlatformTolerationConfig)
    (requestBody : String) : Except String AdmissionReview :=
  match AdmissionReviewFromRequest deps requestBody with
  | .error e => .error e
  | .ok review =>
    match review.Request with
    | none => .error "got an invalid admission request"
    | some req =>
      match processRequest deps config req with
      | .error e => .error e
      | .ok resp => .ok { review with Response := some resp }

/-- Splits a character list at the first colon, the behavior of
strings.SplitN(s, ":", 2) from Go: none when no colon occurs (SplitN
yields a single part), otherwise the text before and after the first
colon. -/
def splitFirstColon : List Char → Option (List Char × List Char)
  | [] => none
  | c :: cs =>
    if c = ':' then some ([], cs)
    else
      match splitFirstColon cs with
      | none => none
      | some (a, b) => some (c :: a, b)

/-- Embeds decodeDockerAuth from registry_auth.go.  The parameter
b64decode abstracts base64.StdEncoding.DecodeString; its error is
propagated.  The decoded string is split on the first colon
(strings.SplitN with limit 2); without a colon the split yields one part
and the fixed error is returned, otherwise the username is the text
before the first colon and the password everything after it. -/
def decodeDockerAuth
    (b64decode : String → Except String String) (encoded : String) :
    Except String (String × String) :=
  match b64decode encoded with
  | .error e => .error e
  | .ok decoded =>
    match splitFirstColon decoded.data with
    | none => .error "invalid auth format, expected format username:password"
    | some (u, p) => .ok (String.mk u, String.mk p)

/-- The default toleration of config.go, used as a concrete fixture;
mapping-built tolerations always carry a nil TolerationSeconds. -/
def sampleToleration : Toleration :=
  { Key := "k8smultiarcher", Value := "arm64Supported", Operator := "Equal",
    Effect := "NoSchedule", TolerationSeconds := none }

/-- A toleration matching the default mapping in key, value, operator,
and effect but carrying a tolerationSeconds value, as a toleration already
present on an admitted workload may. -/
def sampleTolerationWithSeconds : Toleration :=
  { Key := "k8smultiarcher", Value := "arm64Supported", Operator := "Equal",
    Effect := "NoSchedule", TolerationSeconds := some 300 }

/-- A concrete configuration with the single default mapping. -/
def sampleConfig : PlatformTolerationConfig :=
  { Mappings := [{ Platform := "linux/arm64", Toleration := sampleToleration }] }

/-- A concrete pod with one regular container and no tolerations. -/
def samplePod : Pod :=
  { Namespace := "default",
    Spec := { Containers := [{ Name := "app", Image := "img1" }],
              InitContainers := [], EphemeralContainers := [], Tolerations := [] } }

/-- A concrete admission request for a Pod. -/
def sampleRequestPod : AdmissionRequest :=
  { UID := "uid-1", Kind := "Pod", Namespace := "ns1", Object := "rawpod" }

/-- A concrete admission review holding the Pod request. -/
def sampleReviewPod : AdmissionReview :=
  { Request := some sampleRequestPod, Response := none }

/-- A concrete admission request for an unrecognized kind. -/
def sampleRequestDeployment : AdmissionRequest :=
  { UID := "uid-2", Kind := "Deployment", Namespace := "ns1", Object := "rawdep" }

/-- A concrete admission review holding the Deployment request. -/
def sampleReviewDeployment : AdmissionReview :=
  { Request := some sampleRequestDeployment, Response := none }

/-- Concrete collaborators under which no platform is supported: the
review decodes to the Pod request, the pod decodes, and the support
capability denies every image and platform. -/
def sampleDepsEmpty : AdmissionDeps :=
  { unmarshalReview := fun _ => .ok sampleReviewPod,
    unmarshalPod := fun _ => .ok samplePod,
    marshalPod := fun _ => .ok "podbytes",
    unmarshalDaemonSet := fun _ => .error "not a daemonset",
    marshalDaemonSet := fun _ => .ok "dsbytes",
    createPatch := fun _ _ => .ok "patchbytes",
    getRegistryHosts := fun _ _ => [],
    doesImageSupportPlatform := fun _ _ _ => false }

/-- Concrete collaborators whose review decodes to the Deployment
request. -/
def sampleDepsDeployment : AdmissionDeps :=
  { sampleDepsEmpty with unmarshalReview := fun _ => .ok sampleReviewDeployment }

/-- A concrete manifest-inspection capability reporting one platform. -/
def sampleInspect : String → List Host → Except String (List String) :=
  fun _ _ => .ok ["linux/arm64"]

/-- A concrete cache holding one recorded entry. -/
def sampleCacheHit : CacheState :=
  { entries := [("img1:linux/arm64", true, 0)] }

/-- A concrete base64 decode capability used to exercise
decodeDockerAuth on the blob for user and pa:ss. -/
def sampleB64 : String → Except String String :=
  fun _ => .ok "user:pa:ss"

/-- An element already in the list is preserved by the append-if-missing
loop: the loop only ever appends. -/
theorem mem_foldl_appendTolerationIfMissing_of_mem
    (news : List Toleration) (t : List Toleration) (y : Toleration) (h : y ∈ t) :
    y ∈ news.foldl appendTolerationIfMissing t := by
  induction news generalizing t with
  | nil => exact h
  | cons x xs ih =>
    simp only [List.foldl_cons]
    apply ih
    by_cases hx : x ∈ t <;> simp [appendTolerationIfMissing, hx, h]

/-- Every toleration of the news list ends up in the result of the
append-if-missing loop. -/
theorem mem_foldl_appendTolerationIfMissing
    (news : List Toleration) (t : List Toleration) (y : Toleration) (hy : y ∈ news) :
    y ∈ news.foldl appendTolerationIfMissing t := by
  induction news generalizing t with
  | nil => cases hy
  | cons x xs ih =>
    simp only [List.foldl_cons]
    rcases List.mem_cons.mp hy with rfl | hmem
    · apply mem_foldl_appendTolerationIfMissing_of_mem
      by_cases hx : y ∈ t <;> simp [appendTolerationIfMissing, hx]
    · exact ih _ hmem

/-- When everything in news is already present, the append-if-missing
loop changes nothing. -/
theorem foldl_appendTolerationIfMissing_eq_self
    (news : List Toleration) (t : List Toleration) (h : ∀ y ∈ news, y ∈ t) :
    news.foldl appendTolerationIfMissing t = t := by
  induction news with
  | nil => rfl
  | cons x xs ih =>
    simp only [List.foldl_cons]
    have hx : appendTolerationIfMissing t x = t := by
      simp [appendTolerationIfMissing, h x (List.mem_cons_self x xs)]
    rw [hx]
    exact ih (fun y hy => h y (List.mem_cons_of_mem x hy))

/-- The append-if-missing loop only appends: the input list is a prefix
of the output. -/
theorem foldl_appendTolerationIfMissing_exists_extras
    (news : List Toleration) (t : List Toleration) :
    ∃ extras, news.foldl appendTolerationIfMissing t = t ++ extras := by
  induction news generalizing t with
  | nil => exact ⟨[], by simp⟩
  | cons x xs ih =>
    simp only [List.foldl_cons]
    by_cases hx : x ∈ t
    · rw [show appendTolerationIfMissing t x = t from by simp [appendTolerationIfMissing, hx]]
      exact ih t
    · rw [show appendTolerationIfMissing t x = t ++ [x] from by
        simp [appendTolerationIfMissing, hx]]
      obtain ⟨e, he⟩ := ih (t ++ [x])
      exact ⟨x :: e, by simpa using he⟩

/-- Occurrence counting through the append-if-missing loop: an element
gains exactly one copy when it occurs in news and no field-wise identical
element was present, and is left untouched otherwise. -/
theorem count_foldl_appendTolerationIfMissing
    (news : List Toleration) (t : List Toleration) (y : Toleration) :
    (news.foldl appendTolerationIfMissing t).count y
      = t.count y + (if y ∈ news ∧ y ∉ t then 1 else 0) := by
  induction news generalizing t with
  | nil => simp
  | cons x xs ih =>
    simp only [List.foldl_cons]
    by_cases hx : x ∈ t
    · rw [show appendTolerationIfMissing t x = t from by simp [appendTolerationIfMissing, hx]]
      rw [ih t]
      congr 1
      by_cases hyx : y = x
      · subst hyx; simp [hx]
      · simp [List.mem_cons, hyx]
    · rw [show appendTolerationIfMissing t x = t ++ [x] from by
        simp [appendTolerationIfMissing, hx]]
      rw [ih (t ++ [x])]
      by_cases hyx : y = x
      · subst hyx
        simp [hx, List.count_append]
      · have h1 : (t ++ [x]).count y = t.count y := by
          simp [List.count_append, List.count_singleton, hyx]
        rw [h1]
        simp [List.mem_append, List.mem_cons, hyx]

/-- GetTolerationsForPlatforms is the mapping list filtered to the
supported platforms, projected to the tolerations, in mapping order. -/
theorem getTolerationsForPlatforms_eq
    (c : PlatformTolerationConfig) (sp : List String) :
    c.GetTolerationsForPlatforms sp
      = (c.Mappings.filter (fun m => decide (m.Platform ∈ sp))).map
          (fun m => m.Toleration) := by
  unfold PlatformTolerationConfig.GetTolerationsForPlatforms
  have key : ∀ (l : List PlatformTolerationMapping) (acc : List Toleration),
      l.foldl (fun acc m => if m.Platform ∈ sp then acc ++ [m.Toleration] else acc) acc
        = acc ++ (l.filter (fun m => decide (m.Platform ∈ sp))).map (fun m => m.Toleration) := by
    intro l
    induction l with
    | nil => intro acc; simp
    | cons m ms ih =>
      intro acc
      simp only [List.foldl_cons, List.filter_cons]
      by_cases h : m.Platform ∈ sp
      · simp [h, ih]
      · simp [h, ih]
  simpa using key c.Mappings []

/-- Claim C4: for every configuration, existing toleration list, and
supported-platform set, applying the toleration patcher
(addTolerationsToSlice) twice with the same supported-platform set yields
a toleration list identical to applying it once (list equality, so in
particular identical as a set): re-running it on an already-patched
workload is a no-op. -/
theorem addTolerationsToSlice_idempotent
    (config : PlatformTolerationConfig) (sp : List String) (t : List Toleration) :
    addTolerationsToSlice config sp (addTolerationsToSlice config sp t)
      = addTolerationsToSlice config sp t := by
  unfold addTolerationsToSlice
  exact foldl_appendTolerationIfMissing_eq_self _ _
    (fun y hy => mem_foldl_appendTolerationIfMissing _ _ y hy)

/-- Claim C5 as amended: the toleration patcher only appends (the
existing list is a prefix of the result); a toleration produced by the
mapping table gains exactly one copy when no element identical in every
field — key, value, operator, effect, and tolerationSeconds (a nil
pointer matching only nil) — is already present, and is suppressed
exactly when such a full-struct-identical element exists (the count
identity); an element matching only key, value, operator, and effect but
carrying a tolerationSeconds does not suppress the append; and every
mapping whose platform is supported gets its toleration into the result,
not just one. -/
theorem addTolerationsToSlice_append_unless_present
    (config : PlatformTolerationConfig) (sp : List String) (t : List Toleration) :
    (∃ extras, addTolerationsToSlice config sp t = t ++ extras)
    ∧ (∀ x : Toleration,
        (addTolerationsToSlice config sp t).count x
          = t.count x
            + (if x ∈ config.GetTolerationsForPlatforms sp ∧ x ∉ t then 1 else 0))
    ∧ ∀ m ∈ config.Mappings, m.Platform ∈ sp →
        m.Toleration ∈ addTolerationsToSlice config sp t := by
  refine ⟨foldl_appendTolerationIfMissing_exists_extras _ _,
    fun x => count_foldl_appendTolerationIfMissing _ _ _, ?_⟩
  intro m hm hp
  apply mem_foldl_appendTolerationIfMissing
  rw [getTolerationsForPlatforms_eq]
  exact List.mem_map.mpr ⟨m, List.mem_filter.mpr ⟨hm, by simpa using hp⟩, rfl⟩

/-- Witness for claim C5 at a concrete input: with the default mapping,
one supported platform, and an empty toleration list, the default
toleration is appended. -/
theorem addTolerationsToSlice_append_unless_present_witness :
    sampleToleration ∈ addTolerationsToSlice sampleConfig ["linux/arm64"] [] :=
  (addTolerationsToSlice_append_unless_present sampleConfig ["linux/arm64"] []).2.2
    { Platform := "linux/arm64", Toleration := sampleToleration }
    (by simp [sampleConfig]) (by simp)

/-- Counterexample to claim C5 as stated: the existing list holds an
element that is field-wise identical to the mapping toleration in key,
value, operator, and effect, which the claim says suppresses the append —
yet the patcher appends anyway, because the element carries a
tolerationSeconds and the program compares the whole struct, nil pointer
against non-nil pointer included. -/
theorem addTolerationsToSlice_append_unless_present_counterexample :
    sampleTolerationWithSeconds.Key = sampleToleration.Key
    ∧ sampleTolerationWithSeconds.Value = sampleToleration.Value
    ∧ sampleTolerationWithSeconds.Operator = sampleToleration.Operator
    ∧ sampleTolerationWithSeconds.Effect = sampleToleration.Effect
    ∧ addTolerationsToSlice sampleConfig ["linux/arm64"] [sampleTolerationWithSeconds]
        = [sampleTolerationWithSeconds, sampleToleration] :=
  ⟨rfl, rfl, rfl, rfl, by decide⟩

/-- getContainersSupportedPlatforms is the configured platform list
filtered, in configuration order, to the platforms every container
supports. -/
theorem getContainersSupportedPlatforms_eq_filter
    (supp : String → String → Bool) (config : PlatformTolerationConfig)
    (containers : List Container) :
    getContainersSupportedPlatforms supp config containers
      = config.GetPlatforms.filter
          (fun platform => containers.all (fun c => supp c.Image platform)) := by
  unfold getContainersSupportedPlatforms
  have key : ∀ (l : List String) (acc : List String),
      l.foldl
        (fun acc platform =>
          if containers.all (fun c => supp c.Image platform) then acc ++ [platform] else acc)
        acc
        = acc ++ l.filter (fun platform => containers.all (fun c => supp c.Image platform)) := by
    intro l
    induction l with
    | nil => intro acc; simp
    | cons x xs ih =>
      intro acc
      simp only [List.foldl_cons, List.filter_cons]
      by_cases h : (containers.all fun c => supp c.Image x) = true
      · rw [if_pos h, if_pos h, ih (acc ++ [x]), List.append_assoc]
        rfl
      · rw [if_neg h, if_neg h, ih acc]
  simpa using key config.GetPlatforms []

/-- A platform is in the output of getContainersSupportedPlatforms for a
pod exactly when it is configured and every container of the union
supports it. -/
theorem mem_getPodSupportedPlatforms
    (supp : String → String → Bool) (config : PlatformTolerationConfig)
    (pod : Pod) (platform : String) :
    platform ∈ GetPodSupportedPlatforms supp config pod
      ↔ platform ∈ config.GetPlatforms
        ∧ ∀ c ∈ pod.Spec.allContainers, supp c.Image platform = true := by
  unfold GetPodSupportedPlatforms
  rw [getContainersSupportedPlatforms_eq_filter, List.mem_filter]
  simp [List.all_eq_true]

/-- Claim C1: for every configuration, container list (the union of
regular, init, and ephemeral containers, ephemeral containers reduced to
name and image), and platform-support capability, the output of the
platform resolver is the configured platform list restricted, in
configuration order, to the platforms every container image supports; a
platform appears exactly when it is configured and all containers support
it; and under any capability that denies the platform for even one
container of the union, the platform is absent from the output. -/
theorem getPodSupportedPlatforms_all_or_nothing
    (supp : String → String → Bool) (config : PlatformTolerationConfig) (pod : Pod) :
    GetPodSupportedPlatforms supp config pod
      = config.GetPlatforms.filter
          (fun platform => pod.Spec.allContainers.all (fun c => supp c.Image platform))
    ∧ (∀ platform, platform ∈ GetPodSupportedPlatforms supp config pod
        ↔ platform ∈ config.GetPlatforms
          ∧ ∀ c ∈ pod.Spec.allContainers, supp c.Image platform = true)
    ∧ ∀ (supp2 : String → String → Bool) (platform : String) (c : Container),
        c ∈ pod.Spec.allContainers → supp2 c.Image platform = false →
        platform ∉ GetPodSupportedPlatforms supp2 config pod := by
  refine ⟨getContainersSupportedPlatforms_eq_filter supp config _,
    fun platform => mem_getPodSupportedPlatforms supp config pod platform, ?_⟩
  intro supp2 platform c hc hfalse hmem
  have hall := ((mem_getPodSupportedPlatforms supp2 config pod platform).mp hmem).2 c hc
  rw [hfalse] at hall
  cases hall

/-- Witness for claim C1 at a concrete input: under the capability that
denies everything, the configured platform is absent from the output for
the sample pod. -/
theorem getPodSupportedPlatforms_all_or_nothing_witness :
    "linux/arm64" ∉ GetPodSupportedPlatforms (fun _ _ => false) sampleConfig samplePod :=
  (getPodSupportedPlatforms_all_or_nothing (fun _ _ => false) sampleConfig samplePod).2.2
    (fun _ _ => false) "linux/arm64" { Name := "app", Image := "img1" }
    (by simp [samplePod, PodSpec.allContainers]) rfl

/-- Claim C2: DoesImageSupportPlatform first consults the cache under the
key imageReference ++ ":" ++ platform and returns the cached value on a
hit without touching the cache; on a miss it returns false recording
false with the short failure TTL when manifest inspection errors (which
covers a manifest that is not a multi-platform list, since GetManifest
rejects those); on a successful inspection it returns true recording true
with the long TTL exactly when some platform of the manifest list is
string-equal to the requested platform, and otherwise returns false
recording false with the medium negative TTL.  The TTLs are five minutes,
twenty-four hours, and six hours in nanoseconds. -/
theorem doesImageSupportPlatform_cache_and_ttl
    (inspect : String → List Host → Except String (List String))
    (cache : CacheState) (name platform : String) (hosts : List Host) :
    (∀ v, cache.Get (name ++ ":" ++ platform) = some v →
        DoesImageSupportPlatform inspect cache name platform hosts = (v, cache))
    ∧ (cache.Get (name ++ ":" ++ platform) = none →
        (∀ e, inspect name hosts = .error e →
            DoesImageSupportPlatform inspect cache name platform hosts
              = (false, cache.Set (name ++ ":" ++ platform) false cacheFailureTTL))
        ∧ ∀ pls, inspect name hosts = .ok pls →
            (platform ∈ pls →
              DoesImageSupportPlatform inspect cache name platform hosts
                = (true, cache.Set (name ++ ":" ++ platform) true cacheSuccessTTL))
            ∧ (platform ∉ pls →
              DoesImageSupportPlatform inspect cache name platform hosts
                = (false, cache.Set (name ++ ":" ++ platform) false cacheNegativeTTL)))
    ∧ cacheFailureTTL = 5 * nsPerMinute
    ∧ cacheSuccessTTL = 24 * nsPerHour
    ∧ cacheNegativeTTL = 6 * nsPerHour := by
  refine ⟨?_, ?_, rfl, rfl, rfl⟩
  · intro v hv
    simp [DoesImageSupportPlatform, hv]
  · intro hn
    refine ⟨?_, ?_⟩
    · intro e he
      simp [DoesImageSupportPlatform, hn, he]
    · intro pls hok
      refine ⟨fun hmem => ?_, fun hmem => ?_⟩
      · simp [DoesImageSupportPlatform, hn, hok, hmem]
      · simp [DoesImageSupportPlatform, hn, hok, hmem]

/-- Witness for claim C2 at a concrete input: an empty cache, an
inspection reporting the requested platform; the checker returns true and
records true under the concatenated key with the long TTL. -/
theorem doesImageSupportPlatform_cache_and_ttl_witness :
    DoesImageSupportPlatform sampleInspect { entries := [] } "img1" "linux/arm64" []
      = (true, CacheState.Set { entries := [] } ("img1" ++ ":" ++ "linux/arm64") true cacheSuccessTTL) :=
  ((((doesImageSupportPlatform_cache_and_ttl sampleInspect { entries := [] }
      "img1" "linux/arm64" []).2.1 rfl).2 ["linux/arm64"] rfl).1 (by simp))

/-- Claim C10: on a cache hit, DoesImageSupportPlatform returns the
cached value without consulting the registry host list, so for any two
host lists the result is identical and registry credentials never
influence the outcome. -/
theorem doesImageSupportPlatform_cache_hit_ignores_hosts
    (inspect : String → List Host → Except String (List String))
    (cache : CacheState) (name platform : String) (h1 h2 : List Host) (v : Bool)
    (hhit : cache.Get (name ++ ":" ++ platform) = some v) :
    DoesImageSupportPlatform inspect cache name platform h1 = (v, cache)
    ∧ DoesImageSupportPlatform inspect cache name platform h1
        = DoesImageSupportPlatform inspect cache name platform h2 := by
  constructor <;> simp [DoesImageSupportPlatform, hhit]

/-- Witness for claim C10 at a concrete input: a cache holding true for
the key; the checker returns the cached value with the cache unchanged,
for an arbitrary host list. -/
theorem doesImageSupportPlatform_cache_hit_ignores_hosts_witness :
    DoesImageSupportPlatform sampleInspect sampleCacheHit "img1" "linux/arm64" []
      = (true, sampleCacheHit) :=
  (doesImageSupportPlatform_cache_hit_ignores_hosts sampleInspect sampleCacheHit
    "img1" "linux/arm64" [] [{ Name := "h", User := "u", Pass := "p", Token := "t" }]
    true (by decide)).1

/-- Every response the kind switch produces carries Allowed true and the
request UID: both success shapes are the initial response, possibly with
a patch attached, and neither touches UID or Allowed. -/
theorem processRequest_ok_fields
    (deps : AdmissionDeps) (config : PlatformTolerationConfig)
    (req : AdmissionRequest) (resp : AdmissionResponse)
    (h : processRequest deps config req = .ok resp) :
    resp.Allowed = true ∧ resp.UID = req.UID := by
  simp only [processRequest, processPod, processDaemonSet] at h
  repeat' split at h
  all_goals first
  | (simp only [Except.ok.injEq] at h; subst h; exact ⟨rfl, rfl⟩)
  | simp at h

/-- Inversion of ProcessAdmissionReview on success: the body unmarshals
to a review holding a request, the kind switch succeeds, and the result
is that review with the response attached. -/
theorem processAdmissionReview_ok_inv
    (deps : AdmissionDeps) (config : PlatformTolerationConfig)
    (body : String) (r : AdmissionReview)
    (h : ProcessAdmissionReview deps config body = .ok r) :
    ∃ review req resp,
      deps.unmarshalReview body = .ok review ∧ review.Request = some req
      ∧ processRequest deps config req = .ok resp
      ∧ r = { review with Response := some resp } := by
  cases hrev : deps.unmarshalReview body with
  | error e =>
    simp only [ProcessAdmissionReview, AdmissionReviewFromRequest, hrev] at h
    exact absurd h (by simp)
  | ok review =>
    simp only [ProcessAdmissionReview, AdmissionReviewFromRequest, hrev] at h
    cases hreq : review.Request with
    | none =>
      simp only [hreq] at h
      exact absurd h (by simp)
    | some req =>
      simp only [hreq] at h
      cases hpr : processRequest deps config req with
      | error e =>
        simp only [hpr] at h
        exact absurd h (by simp)
      | ok resp =>
        simp only [hpr, Except.ok.injEq] at h
        refine ⟨review, req, resp, rfl, hreq, hpr, ?_⟩
        rw [hreq]
        exact h.symm

/-- Forward evaluation of ProcessAdmissionReview from the three
intermediate results. -/
theorem processAdmissionReview_eval
    (deps : AdmissionDeps) (config : PlatformTolerationConfig)
    (body : String) (review : AdmissionReview) (req : AdmissionRequest)
    (resp : AdmissionResponse)
    (hrev : deps.unmarshalReview body = .ok review)
    (hreq : review.Request = some req)
    (hpr : processRequest deps config req = .ok resp) :
    ProcessAdmissionReview deps config body
      = .ok { review with Response := some resp } := by
  simp only [ProcessAdmissionReview, AdmissionReviewFromRequest, hrev, hreq, hpr]

/-- The Pod arm with an empty supported-platform set returns the plain
response without marshaling or diffing. -/
theorem processRequest_empty_pod
    (deps : AdmissionDeps) (config : PlatformTolerationConfig)
    (req : AdmissionRequest) (pod : Pod)
    (hk : req.Kind = "Pod")
    (hpod : deps.unmarshalPod req.Object = .ok pod)
    (hempty : GetPodSupportedPlatforms
        (fun img pl => deps.doesImageSupportPlatform img pl
          (deps.getRegistryHosts
            (if req.Namespace = "" then pod.Namespace else req.Namespace) pod.Spec))
        config pod = []) :
    processRequest deps config req
      = .ok { UID := req.UID, Allowed := true, PatchType := none, Patch := none } := by
  simp [processRequest, processPod, hk, hpod, hempty]

/-- The DaemonSet arm with an empty supported-platform set returns the
plain response without marshaling or diffing. -/
theorem processRequest_empty_daemonSet
    (deps : AdmissionDeps) (config : PlatformTolerationConfig)
    (req : AdmissionRequest) (ds : DaemonSet)
    (hk : req.Kind = "DaemonSet")
    (hds : deps.unmarshalDaemonSet req.Object = .ok ds)
    (hempty : GetPodTemplateSupportedPlatforms
        (fun img pl => deps.doesImageSupportPlatform img pl
          (deps.getRegistryHosts
            (if req.Namespace = "" then ds.Namespace else req.Namespace) ds.Spec.Template.Spec))
        config ds.Spec.Template = []) :
    processRequest deps config req
      = .ok { UID := req.UID, Allowed := true, PatchType := none, Patch := none } := by
  simp [processRequest, processDaemonSet, hk, hds, hempty]

/-- Claim C3: for an admission review whose embedded object decodes
successfully (Pod or DaemonSet), if the resolved supported-platform set
is empty then ProcessAdmissionReview returns the review with a response
that is allowed and carries no patch and no patch type, and the JSON diff
capability is never consulted on that path: the result is the same for
every diff function. -/
theorem processAdmissionReview_empty_support_short_circuit
    (deps : AdmissionDeps) (config : PlatformTolerationConfig) (body : String)
    (review : AdmissionReview) (req : AdmissionRequest)
    (hrev : deps.unmarshalReview body = .ok review)
    (hreq : review.Request = some req)
    (hcase :
      (req.Kind = "Pod" ∧ ∃ pod, deps.unmarshalPod req.Object = .ok pod ∧
        GetPodSupportedPlatforms
          (fun img pl => deps.doesImageSupportPlatform img pl
            (deps.getRegistryHosts
              (if req.Namespace = "" then pod.Namespace else req.Namespace) pod.Spec))
          config pod = [])
      ∨ (req.Kind = "DaemonSet" ∧ ∃ ds, deps.unmarshalDaemonSet req.Object = .ok ds ∧
        GetPodTemplateSupportedPlatforms
          (fun img pl => deps.doesImageSupportPlatform img pl
            (deps.getRegistryHosts
              (if req.Namespace = "" then ds.Namespace else req.Namespace) ds.Spec.Template.Spec))
          config ds.Spec.Template = [])) :
    ProcessAdmissionReview deps config body
      = .ok { review with Response := some ({ UID := req.UID, Allowed := true, PatchType := none, Patch := none }) }
    ∧ ∀ d2, ProcessAdmissionReview { deps with createPatch := d2 } config body
        = ProcessAdmissionReview deps config body := by
  have hpr : processRequest deps config req
      = .ok { UID := req.UID, Allowed := true, PatchType := none, Patch := none } := by
    rcases hcase with ⟨hk, pod, hpod, hempty⟩ | ⟨hk, ds, hds, hempty⟩
    · exact processRequest_empty_pod deps config req pod hk hpod hempty
    · exact processRequest_empty_daemonSet deps config req ds hk hds hempty
  have h1 := processAdmissionReview_eval deps config body review req _ hrev hreq hpr
  refine ⟨h1, fun d2 => ?_⟩
  have hpr2 : processRequest { deps with createPatch := d2 } config req
      = .ok { UID := req.UID, Allowed := true, PatchType := none, Patch := none } := by
    rcases hcase with ⟨hk, pod, hpod, hempty⟩ | ⟨hk, ds, hds, hempty⟩
    · exact processRequest_empty_pod { deps with createPatch := d2 } config req pod hk hpod hempty
    · exact processRequest_empty_daemonSet { deps with createPatch := d2 } config req ds hk hds hempty
  have h2 := processAdmissionReview_eval { deps with createPatch := d2 } config body review req _ hrev hreq hpr2
  rw [h1, h2]

/-- Witness for claim C3 at a concrete input: the sample collaborators
deny every platform, so the review comes back allowed with no patch. -/
theorem processAdmissionReview_empty_support_short_circuit_witness :
    ProcessAdmissionReview sampleDepsEmpty sampleConfig "body"
      = .ok { sampleReviewPod with Response := some ({ UID := "uid-1", Allowed := true, PatchType := none, Patch := none }) } :=
  (processAdmissionReview_empty_support_short_circuit sampleDepsEmpty sampleConfig "body"
    sampleReviewPod sampleRequestPod rfl rfl
    (Or.inl ⟨rfl, samplePod, rfl, by rfl⟩)).1

/-- Claim C6: whenever ProcessAdmissionReview returns without error, the
response it carries has Allowed true, regardless of whether a patch was
produced. -/
theorem processAdmissionReview_always_allowed
    (deps : AdmissionDeps) (config : PlatformTolerationConfig)
    (body : String) (r : AdmissionReview)
    (h : ProcessAdmissionReview deps config body = .ok r) :
    ∃ resp, r.Response = some resp ∧ resp.Allowed = true := by
  obtain ⟨review, req, resp, hrev, hreq, hpr, hr⟩ :=
    processAdmissionReview_ok_inv deps config body r h
  exact ⟨resp, by rw [hr], (processRequest_ok_fields deps config req resp hpr).1⟩

/-- Witness for claim C6 at a concrete input. -/
theorem processAdmissionReview_always_allowed_witness :
    ∃ resp,
      ({ sampleReviewPod with Response := some ({ UID := "uid-1", Allowed := true, PatchType := none, Patch := none }) }
        : AdmissionReview).Response = some resp ∧ resp.Allowed = true :=
  processAdmissionReview_always_allowed sampleDepsEmpty sampleConfig "body" _ (by rfl)

/-- Claim C7: when the object kind of the embedded request is neither Pod
nor DaemonSet, ProcessAdmissionReview returns the error naming the
offending kind, and no response review is produced. -/
theorem processAdmissionReview_unsupported_kind
    (deps : AdmissionDeps) (config : PlatformTolerationConfig) (body : String)
    (review : AdmissionReview) (req : AdmissionRequest)
    (hrev : deps.unmarshalReview body = .ok review)
    (hreq : review.Request = some req)
    (hp : req.Kind ≠ "Pod") (hd : req.Kind ≠ "DaemonSet") :
    ProcessAdmissionReview deps config body
      = .error ("got a request for an unsupported kind: " ++ req.Kind)
    ∧ ∀ r, ProcessAdmissionReview deps config body ≠ .ok r := by
  have hpr : processRequest deps config req
      = .error ("got a request for an unsupported kind: " ++ req.Kind) := by
    simp [processRequest, hp, hd]
  have hfin : ProcessAdmissionReview deps config body
      = .error ("got a request for an unsupported kind: " ++ req.Kind) := by
    simp only [ProcessAdmissionReview, AdmissionReviewFromRequest, hrev, hreq, hpr]
  exact ⟨hfin, fun r hcontra => by rw [hfin] at hcontra; cases hcontra⟩

/-- Witness for claim C7 at a concrete input: a Deployment request. -/
theorem processAdmissionReview_unsupported_kind_witness :
    ProcessAdmissionReview sampleDepsDeployment sampleConfig "body"
      = .error ("got a request for an unsupported kind: " ++ "Deployment") :=
  (processAdmissionReview_unsupported_kind sampleDepsDeployment sampleConfig "body"
    sampleReviewDeployment sampleRequestDeployment rfl rfl
    (by decide) (by decide)).1

/-- Claim C9: whenever ProcessAdmissionReview returns without error, the
produced response carries the UID of the embedded request, on both the
patch path and the no-patch path. -/
theorem processAdmissionReview_uid_echo
    (deps : AdmissionDeps) (config : PlatformTolerationConfig)
    (body : String) (r : AdmissionReview)
    (h : ProcessAdmissionReview deps config body = .ok r) :
    ∃ req resp, r.Request = some req ∧ r.Response = some resp ∧ resp.UID = req.UID := by
  obtain ⟨review, req, resp, hrev, hreq, hpr, hr⟩ :=
    processAdmissionReview_ok_inv deps config body r h
  refine ⟨req, resp, ?_, by rw [hr], (processRequest_ok_fields deps config req resp hpr).2⟩
  rw [hr]
  exact hreq

/-- Witness for claim C9 at a concrete input. -/
theorem processAdmissionReview_uid_echo_witness :
    ∃ req resp,
      ({ sampleReviewPod with Response := some ({ UID := "uid-1", Allowed := true, PatchType := none, Patch := none }) }
        : AdmissionReview).Request = some req
      ∧ ({ sampleReviewPod with Response := some ({ UID := "uid-1", Allowed := true, PatchType := none, Patch := none }) }
        : AdmissionReview).Response = some resp
      ∧ resp.UID = req.UID :=
  processAdmissionReview_uid_echo sampleDepsEmpty sampleConfig "body" _ (by rfl)

/-- Splitting at the first colon of u ++ colon ++ p recovers u and p when
u is colon-free; p may contain further colons. -/
theorem splitFirstColon_append (u p : List Char) (hu : ':' ∉ u) :
    splitFirstColon (u ++ ':' :: p) = some (u, p) := by
  induction u with
  | nil => simp [splitFirstColon]
  | cons c cs ih =>
    have hc : ¬c = ':' := fun h => hu (h ▸ List.mem_cons_self c cs)
    have hcs : ':' ∉ cs := fun h => hu (List.mem_cons_of_mem c h)
    simp [splitFirstColon, hc, ih hcs]

/-- Without a colon there is no split. -/
theorem splitFirstColon_none (s : List Char) (hs : ':' ∉ s) :
    splitFirstColon s = none := by
  induction s with
  | nil => rfl
  | cons c cs ih =>
    have hc : ¬c = ':' := fun h => hs (h ▸ List.mem_cons_self c cs)
    have hcs : ':' ∉ cs := fun h => hs (List.mem_cons_of_mem c h)
    simp [splitFirstColon, hc, ih hcs]

/-- Claim C8: decodeDockerAuth splits the decoded blob on its first colon
only: when the decode yields u ++ colon ++ p with u colon-free, the
username is u and the password is p, even when p itself contains colons;
when the decoded string holds no colon at all, the fixed format error is
returned. -/
theorem decodeDockerAuth_split_first_colon
    (b64decode : String → Except String String) (encoded u p : String) :
    (':' ∉ u.data → b64decode encoded = .ok (u ++ ":" ++ p) →
      decodeDockerAuth b64decode encoded = .ok (u, p))
    ∧ ∀ s : String, b64decode encoded = .ok s → ':' ∉ s.data →
        decodeDockerAuth b64decode encoded
          = .error "invalid auth format, expected format username:password" := by
  constructor
  · intro hu hok
    have hdata : (u ++ ":" ++ p).data = u.data ++ ':' :: p.data := by
      simp [String.data_append]
    simp [decodeDockerAuth, hok, hdata, splitFirstColon_append u.data p.data hu]
  · intro s hok hs
    simp [decodeDockerAuth, hok, splitFirstColon_none s.data hs]

/-- Witness for claim C8 at a concrete input: the blob decoding to
user:pa:ss yields the username user and the password pa:ss. -/
theorem decodeDockerAuth_split_first_colon_witness :
    decodeDockerAuth sampleB64 "blob" = .ok ("user", "pa:ss") :=
  (decodeDockerAuth_split_first_colon sampleB64 "blob" "user" "pa:ss").1
    (by decide) (by rfl)
